import Mathlib

/-!
Verification of the core of `fleaflicker_dashboard` (file
`src/fleaflicker_dashboard/models.py`): the score-value normalizer, the
`Player` view with its derived accessors, roster/free-agent extraction, the
upgrade recommender, and scoreboard/standings row extraction.

The Python code is shallowly embedded: JSON-compatible values become the
inductive type `Json`; Python floats become exact rationals `ℚ`; Python's
`dict.get` becomes `pyGet`/`pyGetD` (attribute access on a non-dict, which
would raise in Python, is modelled as an absent key, matching the spec's
"accessors should treat unexpected shapes as absent"); Python truthiness
becomes `Json.truthy`; Python's stable `sorted` becomes the stable insertion
sort `stableSort` (extensionally equal to any stable sort by the same key).
-/

/-- A JSON-compatible value, as passed around by the Python code. -/
inductive Json where
  | null : Json
  | bool (b : Bool) : Json
  | num (q : ℚ) : Json
  | str (s : String) : Json
  | arr (elems : List Json) : Json
  | obj (fields : List (String × Json)) : Json

/-- First-match association-list lookup, modelling Python `key in d` /
`d[key]` on a dict (dict keys are unique, so first match is the match). -/
def lookupJ : List (String × Json) → String → Option Json
  | [], _ => none
  | (k, v) :: rest, key => if k = key then some v else lookupJ rest key

theorem lookupJ_sizeOf {kvs : List (String × Json)} {key : String} {v : Json}
    (h : lookupJ kvs key = some v) : sizeOf v < sizeOf kvs := by
  induction kvs with
  | nil => simp [lookupJ] at h
  | cons hd tl ih =>
    obtain ⟨k, w⟩ := hd
    by_cases hk : k = key
    · simp [lookupJ, hk] at h
      subst h
      simp
      omega
    · simp [lookupJ, hk] at h
      have := ih h
      simp
      omega

/-- Python truthiness for JSON-compatible values. -/
def Json.truthy : Json → Bool
  | .null => false
  | .bool b => b
  | .num q => q != 0
  | .str s => s != ""
  | .arr elems => !elems.isEmpty
  | .obj fields => !fields.isEmpty

def Json.isNull : Json → Bool
  | .null => true
  | _ => false

def Json.isObj : Json → Bool
  | .obj _ => true
  | _ => false

/-- Python `d.get(k)` (default `None`); a non-dict receiver is treated as
having no keys (Python would raise, the spec asks for absent). -/
def pyGet (j : Json) (k : String) : Json :=
  match j with
  | .obj fields => (lookupJ fields k).getD .null
  | _ => .null

/-- Python `d.get(k, default)`. -/
def pyGetD (j : Json) (k : String) (d : Json) : Json :=
  match j with
  | .obj fields => (lookupJ fields k).getD d
  | _ => d

/-- Python `a or b`: the left operand if truthy, else the right. -/
def pyOr (a b : Json) : Json :=
  if a.truthy then a else b

/-- Iterating a JSON value as a sequence; non-sequences yield nothing. -/
def asArr : Json → List Json
  | .arr elems => elems
  | _ => []

/-- Python `float(x)` as used behind `or 0.0` guards: numbers (including
bools, which Python treats as ints) convert, anything else is modelled as 0
(Python would raise on the remaining truthy non-numeric cases). -/
def pyFloat : Json → ℚ
  | .num q => q
  | .bool b => if b then 1 else 0
  | _ => 0

mutual

/-- Structural equality of JSON values, modelling Python `==`/`!=` as used on
`position` values (strings in every relevant payload; Python's cross-type
numeric equality and dict key-order insensitivity are not reproduced). -/
def jeq : Json → Json → Bool
  | .null, .null => true
  | .bool a, .bool b => a == b
  | .num a, .num b => a == b
  | .str a, .str b => a == b
  | .arr a, .arr b => jeqList a b
  | .obj a, .obj b => jeqFields a b
  | _, _ => false

/-- Elementwise equality of JSON sequences (helper for `jeq`). -/
def jeqList : List Json → List Json → Bool
  | [], [] => true
  | a :: as_, b :: bs => jeq a b && jeqList as_ bs
  | _, _ => false

/-- Fieldwise equality of JSON objects (helper for `jeq`). -/
def jeqFields : List (String × Json) → List (String × Json) → Bool
  | [], [] => true
  | (ka, va) :: as_, (kb, vb) :: bs => ka == kb && jeq va vb && jeqFields as_ bs
  | _, _ => false

end

mutual

/-- Embeds `_score_value` (models.py lines 10–17): numbers pass through (Python
`isinstance(x, (int, float))` counts bools as ints), a dict with a `value`
key recurses into it, everything else degrades to 0.0. -/
def scoreValue : Json → ℚ
  | .num q => q
  | .bool b => if b then 1 else 0
  | .obj fields => scoreValueObj fields
  | _ => 0

/-- The dict case of `_score_value`: Python's `"value" in score_blob` /
`score_blob["value"]` scans to the (unique) `value` key. -/
def scoreValueObj : List (String × Json) → ℚ
  | [] => 0
  | (k, v) :: rest => if k = "value" then scoreValue v else scoreValueObj rest

end

theorem scoreValueObj_eq (fields : List (String × Json)) :
    scoreValueObj fields =
      match lookupJ fields "value" with
      | some v => scoreValue v
      | none => 0 := by
  induction fields with
  | nil => simp [scoreValueObj, lookupJ]
  | cons hd rest ih =>
    obtain ⟨k, v⟩ := hd
    by_cases hk : k = "value" <;> simp [scoreValueObj, lookupJ, hk, ih]

/-- The recursion of `_score_value` with an explicit step budget: `none`
means the budget was exhausted before the recursion bottomed out. -/
def scoreValueFuel : Nat → Json → Option ℚ
  | 0, _ => none
  | _ + 1, .num q => some q
  | _ + 1, .bool b => some (if b then 1 else 0)
  | fuel + 1, .obj fields =>
    match lookupJ fields "value" with
    | some v => scoreValueFuel fuel v
    | none => some 0
  | _ + 1, _ => some 0

mutual

/-- The number of recursive steps `_score_value` takes on an input: one plus
the length of the chain of nested `value` keys. -/
def chainDepth : Json → Nat
  | .obj fields => chainDepthObj fields
  | _ => 1

/-- The dict case of `chainDepth`. -/
def chainDepthObj : List (String × Json) → Nat
  | [] => 1
  | (k, v) :: rest => if k = "value" then chainDepth v + 1 else chainDepthObj rest

end

theorem chainDepthObj_eq (fields : List (String × Json)) :
    chainDepthObj fields =
      match lookupJ fields "value" with
      | some v => chainDepth v + 1
      | none => 1 := by
  induction fields with
  | nil => simp [chainDepthObj, lookupJ]
  | cons hd rest ih =>
    obtain ⟨k, v⟩ := hd
    by_cases hk : k = "value" <;> simp [chainDepthObj, lookupJ, hk, ih]

/-- Embeds `Player` (models.py lines 20-74): an immutable view over one raw JSON
record. -/
structure Player where
  data : Json

/-- The nested pro-player sub-object: `data.get("pro_player") or
data.get("proPlayer") or {}`. -/
def Player.pro (p : Player) : Json :=
  pyOr (pyOr (pyGet p.data "pro_player") (pyGet p.data "proPlayer")) (.obj [])

/-- Embeds `Player.name` (models.py lines 24–36): first truthy value in the
fallback chain, else `"Unknown"`. -/
def Player.name (p : Player) : Json :=
  pyOr (pyOr (pyOr (pyOr (pyOr (pyOr (pyGet p.pro "name_full")
    (pyGet p.pro "nameFull"))
    (pyGet p.pro "name"))
    (pyGet p.data "name_full"))
    (pyGet p.data "nameFull"))
    (pyGet p.data "displayName"))
    (pyOr (pyGet p.data "name") (.str "Unknown"))

/-- Embeds `Player.position` (models.py lines 38–41). -/
def Player.position (p : Player) : Json :=
  pyOr (pyOr (pyGet p.pro "position") (pyGet p.data "position")) (.str "")

/-- Embeds `Player.team` (models.py lines 43–53). -/
def Player.team (p : Player) : Json :=
  pyOr (pyOr (pyOr (pyOr (pyOr (pyGet p.pro "pro_team_abbreviation")
    (pyGet p.pro "proTeamAbbreviation"))
    (pyGet p.pro "pro_team"))
    (pyGet p.pro "team_abbreviation"))
    (pyGet p.pro "teamAbbreviation"))
    (.str "")

/-- Embeds `Player.projection` (models.py lines 55–61). -/
def Player.projection (p : Player) : ℚ :=
  let projections :=
    pyOr (pyGetD p.data "projections" (.obj [])) (pyGetD p.data "projection" (.obj []))
  let value := pyGet projections "value"
  let value :=
    if value.isNull && projections.isObj then
      let v := pyOr (pyGet projections "weekly") (pyGet projections "season")
      if v.isObj then pyGet v "value" else v
    else value
  pyFloat (pyOr value (.num 0))

/-- The list comprehension in `Player.last_three`: each entry of
`data["last_x_points"]` has its `value` key fed through `_score_value`. -/
def Player.lastValues (p : Player) : List ℚ :=
  (asArr (pyGetD p.data "last_x_points" (.arr []))).map
    (fun s => scoreValue (pyGet s "value"))

/-- Embeds `Player.last_three` (models.py lines 64–71). -/
def Player.last_three (p : Player) : ℚ :=
  let values := p.lastValues
  if 3 ≤ values.length then
    (values.drop (values.length - 3)).sum / 3
  else if values.isEmpty then 0
  else values.getLastD 0

/-- Embeds `Player.score` (models.py lines 73–74). -/
def Player.score (p : Player) : ℚ :=
  p.projection * (7 / 10) + p.last_three * (3 / 10)

/-- Embeds `roster_players_from_json` (models.py lines 77–86). -/
def roster_players_from_json (roster_json : Json) : List Player :=
  if !roster_json.truthy then []
  else
    (asArr (pyGetD roster_json "groups" (.arr []))).flatMap fun group =>
      (asArr (pyGetD group "slots" (.arr []))).filterMap fun slot =>
        let league_player := pyGet slot "league_player"
        if league_player.truthy then some ⟨league_player⟩ else none

/-- Embeds `free_agent_players_from_json` (models.py lines 89–90). -/
def free_agent_players_from_json (players_json : Json) : List Player :=
  (asArr (pyGetD players_json "players" (.arr []))).map Player.mk

/-- Stable insertion: `x` goes after exactly those existing elements `y`
with `before y x`. -/
def insertStable (before : Player → Player → Bool) (x : Player) :
    List Player → List Player
  | [] => [x]
  | y :: ys => if before y x then y :: insertStable before x ys else x :: y :: ys

/-- Python's `sorted` is a stable sort; any stable sort by the same key is
extensionally the same list, so it is modelled as stable insertion sort with
`before y x` meaning "`y` must stay in front of the later element `x`". -/
def stableSort (before : Player → Player → Bool) : List Player → List Player
  | [] => []
  | x :: xs => insertStable before x (stableSort before xs)

/-- Embeds `sorted(roster_list, key=lambda p: p.score())`: ascending, stable. -/
def sortByScoreAsc (ps : List Player) : List Player :=
  stableSort (fun a b => decide (a.score < b.score)) ps

/-- Embeds `sorted(free_agent_list, key=lambda p: p.score(), reverse=True)`:
descending, stable. -/
def sortByScoreDesc (ps : List Player) : List Player :=
  stableSort (fun a b => decide (b.score < a.score)) ps

/-- The inner `for free_agent in free_sorted` loop of `recommend_upgrades`
for one roster player. -/
def recRow (match_position : Bool) (free_sorted : List Player)
    (roster_player : Player) : List (Player × Player × ℚ) :=
  free_sorted.filterMap fun free_agent =>
    if match_position && !jeq free_agent.position roster_player.position then
      none
    else
      let diff := free_agent.score - roster_player.score
      if 0 < diff then some (free_agent, roster_player, diff) else none

/-- The outer `for roster_player in roster_sorted` loop, including the
`if match_position: break` after the first iteration. -/
def recLoop (match_position : Bool) (free_sorted : List Player) :
    List Player → List (Player × Player × ℚ)
  | [] => []
  | roster_player :: rest =>
    recRow match_position free_sorted roster_player ++
      (if match_position then [] else recLoop match_position free_sorted rest)

/-- Embeds `recommend_upgrades` (models.py lines 93–116). -/
def recommend_upgrades (roster free_agents : List Player)
    (match_position : Bool) : List (Player × Player × ℚ) :=
  if roster.isEmpty || free_agents.isEmpty then []
  else recLoop match_position (sortByScoreDesc free_agents) (sortByScoreAsc roster)

/-- One row in the scoreboard table (`home`, `home_score`, `away`,
`away_score`). -/
structure ScoreRow where
  home : Json
  home_score : ℚ
  away : Json
  away_score : ℚ

/-- One row built from a `games`-shaped entry (models.py lines 121–131). -/
def gameRow (game : Json) : ScoreRow :=
  let home := pyGetD game "home" (.obj [])
  let away := pyGetD game "away" (.obj [])
  { home := pyGetD home "name" (.str "")
    home_score := scoreValue (pyGet home "score")
    away := pyGetD away "name" (.str "")
    away_score := scoreValue (pyGet away "score") }

/-- One row built from a `matchups`-shaped entry, with team names nested one
level deeper under `team` (models.py lines 135–145). -/
def matchupRow (matchup : Json) : ScoreRow :=
  let home := pyGetD matchup "home" (.obj [])
  let away := pyGetD matchup "away" (.obj [])
  { home := pyGetD (pyGetD home "team" (.obj [])) "name" (pyGetD home "name" (.str ""))
    home_score := scoreValue (pyGet home "score")
    away := pyGetD (pyGetD away "team" (.obj [])) "name" (pyGetD away "name" (.str ""))
    away_score := scoreValue (pyGet away "score") }

/-- The rows the `games` shape yields. -/
def gamesRows (scoreboard_json : Json) : List ScoreRow :=
  (asArr (pyGetD scoreboard_json "games" (.arr []))).map gameRow

/-- The rows the `matchups` shape yields. -/
def matchupRows (scoreboard_json : Json) : List ScoreRow :=
  (asArr (pyGetD scoreboard_json "matchups" (.arr []))).map matchupRow

/-- Embeds `scoreboard_rows` (models.py lines 119–146): the `games` shape, falling
back to the `matchups` shape only when the former yields no rows. -/
def scoreboard_rows (scoreboard_json : Json) : List ScoreRow :=
  let rows := gamesRows scoreboard_json
  if rows.isEmpty then matchupRows scoreboard_json else rows

/-- One row in the standings table. -/
structure StandingsRow where
  rank : Json
  name : Json
  wins : Json
  losses : Json
  ties : Json

/-- Embeds `team.get("record", team.get("recordOverall", dict()))`. -/
def recordOf (team : Json) : Json :=
  pyGetD team "record" (pyGetD team "recordOverall" (.obj []))

/-- The row built from one team entry (models.py lines 152–162). -/
def rowOfTeam (team : Json) : StandingsRow :=
  let record := recordOf team
  { rank := pyGet team "rank"
    name := pyGet team "name"
    wins := pyGet record "wins"
    losses := pyGet record "losses"
    ties := pyGetD record "ties" (.num 0) }

/-- Embeds `standings_rows` (models.py lines 149–163). -/
def standings_rows (standings_json : Json) : List StandingsRow :=
  (asArr (pyGetD standings_json "divisions" (.arr []))).flatMap fun division =>
    (asArr (pyGetD division "teams" (.arr []))).map rowOfTeam

/-- Written from the amended claim C1: in position-unconstrained mode every
roster player, in ascending-score order, is a replacement target; for each
one, a Recommendation per free agent whose score strictly exceeds that
player's, in descending free-agent score order. -/
def unconstrainedRecsSpec (roster free_agents : List Player) :
    List (Player × Player × ℚ) :=
  (sortByScoreAsc roster).flatMap fun roster_player =>
    (sortByScoreDesc free_agents).filterMap fun free_agent =>
      if roster_player.score < free_agent.score then
        some (free_agent, roster_player, free_agent.score - roster_player.score)
      else none

/-- Written from the amended claim C2: in position-constrained mode only the
worst roster player (the head of the ascending stable sort) is a replacement
target; it receives a Recommendation per position-matching free agent whose
score strictly exceeds its own, in descending free-agent score order. -/
def constrainedWorstSpec (roster free_agents : List Player) :
    List (Player × Player × ℚ) :=
  match sortByScoreAsc roster with
  | [] => []
  | worst :: _ =>
    (sortByScoreDesc free_agents).filterMap fun free_agent =>
      if jeq free_agent.position worst.position && decide (worst.score < free_agent.score) then
        some (free_agent, worst, free_agent.score - worst.score)
      else none

/-- A concrete raw record whose Player has the given position and whose
projection and last-three average both equal `q`, hence score `q`. -/
def mkP (q : ℚ) (pos : String) : Player :=
  ⟨.obj [("position", .str pos),
         ("projections", .obj [("value", .num q)]),
         ("last_x_points", .arr [.obj [("value", .num q)]])]⟩


theorem mkP_score (q : ℚ) (pos : String) : (mkP q pos).score = q := by
  simp [mkP, Player.score, Player.projection, Player.last_three, Player.lastValues,
        pyGet, pyGetD, pyOr, lookupJ, asArr, scoreValue, pyFloat,
        Json.truthy, Json.isNull, Json.isObj]
  by_cases hq : q = 0
  · simp [hq]
  · simp [hq]
    ring

theorem mkP_position (q : ℚ) (pos : String) : (mkP q pos).position = .str pos := by
  simp [mkP, Player.position, Player.pro, pyGet, pyOr, lookupJ, Json.truthy]
  exact fun h => h.symm

theorem pyOr_truthy_right {a b : Json} (h : b.truthy = true) :
    (pyOr a b).truthy = true := by
  unfold pyOr
  split <;> simp_all

theorem truthy_ne_empty_str {j : Json} (h : j.truthy = true) : j ≠ .str "" := by
  intro he
  subst he
  simp [Json.truthy] at h

/-- Claim C3: for every Player (any underlying raw record), `score()` equals
`projection() * 0.7 + last_three() * 0.3` exactly, with these fixed
weights. -/
theorem score_is_fixed_blend (p : Player) :
    p.score = p.projection * (7 / 10) + p.last_three * (3 / 10) := rfl

/-- Claim C5: the score-value normalizer is total and never raises: plain
numbers (Python counts bools as numbers) convert to their numeric value, a
mapping with a `value` key is resolved by recursing into that key, and every
other input yields 0.0 — including the spec's five concrete examples. -/
theorem score_value_normalizer_spec :
    scoreValue (.num 5) = 5 ∧
    scoreValue (.obj [("value", .num 5)]) = 5 ∧
    scoreValue (.obj [("value", .obj [("value", .num 5)])]) = 5 ∧
    scoreValue (.str "x") = 0 ∧
    scoreValue .null = 0 ∧
    ∀ j : Json, scoreValue j =
      match j with
      | .num q => q
      | .bool b => if b then 1 else 0
      | .obj fields =>
        (match lookupJ fields "value" with
         | some v => scoreValue v
         | none => 0)
      | _ => 0 := by
  refine ⟨by simp [scoreValue, scoreValueObj, lookupJ],
    by simp [scoreValue, scoreValueObj, lookupJ],
    by simp [scoreValue, scoreValueObj, lookupJ],
    by simp [scoreValue], by simp [scoreValue], ?_⟩
  intro j
  cases j <;> simp [scoreValue, scoreValueObj_eq]

/-- Claim C6: the score-value normalizer's recursion terminates on every
finite JSON value: the fuelled version of the recursion, given the finite
budget `chainDepth j`, bottoms out with the normalizer's value instead of
running out of fuel. -/
theorem score_value_terminating (j : Json) :
    scoreValueFuel (chainDepth j) j = some (scoreValue j) := by
  have key : ∀ n (j : Json), sizeOf j ≤ n →
      scoreValueFuel (chainDepth j) j = some (scoreValue j) := by
    intro n
    induction n with
    | zero =>
      intro j hj
      cases j <;> simp at hj
    | succ n ih =>
      intro j hj
      cases j with
      | obj fields =>
        rw [chainDepth, chainDepthObj_eq, scoreValue, scoreValueObj_eq]
        cases h : lookupJ fields "value" with
        | none => simp [scoreValueFuel, h]
        | some v =>
          have hs := lookupJ_sizeOf h
          have hv : sizeOf v ≤ n := by
            simp at hj
            omega
          simp [scoreValueFuel, h, ih v hv]
      | _ => simp [chainDepth, scoreValueFuel, scoreValue]
  exact key (sizeOf j) j le_rfl

/-- Claim C10: `Player.name` never returns the empty string: every falsy
value in the fallback chain is skipped, so the result is always truthy (the
chain ends in the truthy sentinel `"Unknown"`). -/
theorem player_name_never_empty (p : Player) :
    (p.name).truthy = true ∧ p.name ≠ .str "" := by
  have h : (p.name).truthy = true := by
    unfold Player.name
    exact pyOr_truthy_right (pyOr_truthy_right (by simp [Json.truthy]))
  exact ⟨h, truthy_ne_empty_str h⟩

/-- A raw record with five recent-points entries 1..5 (spec example). -/
def P5 : Player :=
  ⟨.obj [("last_x_points", .arr [.obj [("value", .num 1)], .obj [("value", .num 2)],
    .obj [("value", .num 3)], .obj [("value", .num 4)], .obj [("value", .num 5)]])]⟩

/-- A raw record with a single recent-points entry 7 (spec example). -/
def P1 : Player := ⟨.obj [("last_x_points", .arr [.obj [("value", .num 7)]])]⟩

/-- A raw record with no recent-points entries (spec example). -/
def P0 : Player := ⟨.obj [("last_x_points", .arr [])]⟩

theorem P5_lastValues : P5.lastValues = [1, 2, 3, 4, 5] := by
  simp [P5, Player.lastValues, pyGetD, pyGet, lookupJ, asArr, scoreValue]

theorem P1_lastValues : P1.lastValues = [7] := by
  simp [P1, Player.lastValues, pyGetD, pyGet, lookupJ, asArr, scoreValue]

theorem P0_lastValues : P0.lastValues = [] := by
  simp [P0, Player.lastValues, pyGetD, pyGet, lookupJ, asArr]

/-- Claim C4: `last_three` maps the entries under the recent-points key
through the score-value normalizer (that is what `lastValues` is); with at
least three values it averages the final three in sequence order, with one
or two values it returns only the last value, and with none it returns
0.0. -/
theorem last_three_window (p : Player) :
    (p.lastValues = [] → p.last_three = 0) ∧
    (p.lastValues ≠ [] → p.lastValues.length < 3 →
      p.last_three = p.lastValues.getLastD 0) ∧
    (3 ≤ p.lastValues.length →
      (p.lastValues.drop (p.lastValues.length - 3)).length = 3 ∧
      p.last_three = (p.lastValues.drop (p.lastValues.length - 3)).sum / 3) := by
  have hdef : p.last_three =
      if 3 ≤ p.lastValues.length then
        (p.lastValues.drop (p.lastValues.length - 3)).sum / 3
      else if p.lastValues.isEmpty then 0
      else p.lastValues.getLastD 0 := rfl
  refine ⟨fun h => ?_, fun h1 h2 => ?_, fun h => ⟨?_, ?_⟩⟩
  · rw [hdef]
    simp [h]
  · rw [hdef, if_neg (by omega)]
    simp [h1]
  · simp
    omega
  · rw [hdef, if_pos h]

/-- Witness for C4 at the spec's three examples. -/
theorem last_three_window_witness :
    (P0.lastValues = [] ∧ P0.last_three = 0) ∧
    (P1.lastValues ≠ [] ∧ P1.lastValues.length < 3 ∧ P1.last_three = 7) ∧
    (3 ≤ P5.lastValues.length ∧ P5.last_three = 4) := by
  refine ⟨⟨P0_lastValues, (last_three_window P0).1 P0_lastValues⟩,
    ⟨by simp [P1_lastValues], by simp [P1_lastValues], ?_⟩,
    by simp [P5_lastValues], ?_⟩
  · rw [(last_three_window P1).2.1 (by simp [P1_lastValues]) (by simp [P1_lastValues])]
    simp [P1_lastValues]
  · rw [((last_three_window P5).2.2 (by simp [P5_lastValues])).2]
    rw [P5_lastValues]
    norm_num

/-- Claim C7: every extraction and recommendation entry point maps an empty
or missing input collection to an empty output: a null roster payload, a
roster payload without a `groups` key, one whose groups have no slots, a
free-agent payload without a `players` key, and `recommend_upgrades` with
either input list empty. -/
theorem empty_collections_yield_empty :
    roster_players_from_json .null = [] ∧
    (∀ fields, lookupJ fields "groups" = none →
      roster_players_from_json (.obj fields) = []) ∧
    (∀ groups, (∀ g ∈ groups, asArr (pyGetD g "slots" (.arr [])) = []) →
      roster_players_from_json (.obj [("groups", .arr groups)]) = []) ∧
    (∀ fields, lookupJ fields "players" = none →
      free_agent_players_from_json (.obj fields) = []) ∧
    (∀ free_agents mp, recommend_upgrades [] free_agents mp = []) ∧
    (∀ roster mp, recommend_upgrades roster [] mp = []) := by
  refine ⟨rfl, fun fields h => ?_, fun groups hg => ?_, fun fields h => ?_,
    fun free_agents mp => ?_, fun roster mp => ?_⟩
  · simp [roster_players_from_json, pyGetD, h, asArr]
  · have expand : roster_players_from_json (.obj [("groups", .arr groups)]) =
        groups.flatMap (fun group =>
          (asArr (pyGetD group "slots" (.arr []))).filterMap fun slot =>
            let league_player := pyGet slot "league_player"
            if league_player.truthy then some ⟨league_player⟩ else none) := rfl
    rw [expand, List.flatMap_eq_nil_iff]
    intro g hgmem
    rw [hg g hgmem]
    simp
  · simp [free_agent_players_from_json, pyGetD, h, asArr]
  · simp [recommend_upgrades]
  · simp [recommend_upgrades]

/-- Witness for C7: each guarded branch exercised at a concrete payload. -/
theorem empty_collections_yield_empty_witness :
    (lookupJ [("x", .null)] "groups" = none ∧
      roster_players_from_json (.obj [("x", .null)]) = []) ∧
    (roster_players_from_json (.obj [("groups", .arr [.obj []])]) = []) ∧
    (lookupJ [("x", .null)] "players" = none ∧
      free_agent_players_from_json (.obj [("x", .null)]) = []) ∧
    recommend_upgrades [] [mkP 1 "X"] true = [] ∧
    recommend_upgrades [mkP 1 "X"] [] false = [] := by
  refine ⟨⟨by simp [lookupJ], empty_collections_yield_empty.2.1 _ (by simp [lookupJ])⟩,
    empty_collections_yield_empty.2.2.1 [.obj []] (by simp [pyGetD, lookupJ, asArr]),
    ⟨by simp [lookupJ], empty_collections_yield_empty.2.2.2.1 _ (by simp [lookupJ])⟩,
    empty_collections_yield_empty.2.2.2.2.1 _ _,
    empty_collections_yield_empty.2.2.2.2.2 _ _⟩

/-- Claim C8: scoreboard extraction uses the `games` shape whenever it
yields at least one row and falls back to the `matchups` shape exactly when
it does not; the `games` shape yields no rows exactly when the `games` list
is absent or empty (each entry yields a row unconditionally), so the two
shapes are never merged. -/
theorem scoreboard_two_shapes (j : Json) :
    (gamesRows j ≠ [] → scoreboard_rows j = gamesRows j) ∧
    (gamesRows j = [] → scoreboard_rows j = matchupRows j) ∧
    (gamesRows j = [] ↔ asArr (pyGetD j "games" (.arr [])) = []) := by
  have hdef : scoreboard_rows j =
      if (gamesRows j).isEmpty then matchupRows j else gamesRows j := rfl
  refine ⟨fun h => ?_, fun h => ?_, ?_⟩
  · rw [hdef, if_neg (by simp [List.isEmpty_iff, h])]
  · rw [hdef, if_pos (by simp [List.isEmpty_iff, h])]
  · simp [gamesRows, List.map_eq_nil_iff]

/-- A scoreboard payload carrying both shapes, `games` non-empty. -/
def SB1 : Json := .obj [("games", .arr [.obj []]), ("matchups", .arr [.obj []])]

/-- A scoreboard payload carrying only the `matchups` shape. -/
def SB2 : Json := .obj [("matchups", .arr [.obj []])]

/-- Witness for C8: `games` preferred when present and non-empty, `matchups`
used when `games` is absent. -/
theorem scoreboard_two_shapes_witness :
    (gamesRows SB1 ≠ [] ∧ scoreboard_rows SB1 = gamesRows SB1) ∧
    (gamesRows SB2 = [] ∧ scoreboard_rows SB2 = matchupRows SB2) := by
  have h1 : gamesRows SB1 ≠ [] := by simp [SB1, gamesRows, pyGetD, lookupJ, asArr]
  have h2 : gamesRows SB2 = [] := by simp [SB2, gamesRows, pyGetD, lookupJ, asArr]
  exact ⟨⟨h1, (scoreboard_two_shapes SB1).1 h1⟩, ⟨h2, (scoreboard_two_shapes SB2).2.1 h2⟩⟩

/-- Claim C9: every standings row comes from one team record via
`rowOfTeam`; the record resolves from the `record` key, else from the
`recordOverall` key; in the resolved record, a missing `ties` key defaults
to 0 while missing `wins`/`losses` pass through as null (no default). -/
theorem standings_row_fields :
    (∀ j row, row ∈ standings_rows j → ∃ team, row = rowOfTeam team) ∧
    (∀ tfields v, lookupJ tfields "record" = some v →
      recordOf (.obj tfields) = v) ∧
    (∀ tfields v, lookupJ tfields "record" = none →
      lookupJ tfields "recordOverall" = some v → recordOf (.obj tfields) = v) ∧
    (∀ team rfields, recordOf team = .obj rfields →
      (lookupJ rfields "ties" = none → (rowOfTeam team).ties = .num 0) ∧
      (∀ v, lookupJ rfields "ties" = some v → (rowOfTeam team).ties = v) ∧
      (lookupJ rfields "wins" = none → (rowOfTeam team).wins = .null) ∧
      (∀ v, lookupJ rfields "wins" = some v → (rowOfTeam team).wins = v) ∧
      (lookupJ rfields "losses" = none → (rowOfTeam team).losses = .null) ∧
      (∀ v, lookupJ rfields "losses" = some v → (rowOfTeam team).losses = v)) := by
  refine ⟨?_, ?_, ?_, ?_⟩
  · intro j row hrow
    simp only [standings_rows, List.mem_flatMap, List.mem_map] at hrow
    obtain ⟨d, -, t, -, rfl⟩ := hrow
    exact ⟨t, rfl⟩
  · intro tf v h
    simp [recordOf, pyGetD, h]
  · intro tf v h1 h2
    simp [recordOf, pyGetD, h1, h2]
  · intro team rf hrec
    have hties : (rowOfTeam team).ties = pyGetD (recordOf team) "ties" (.num 0) := rfl
    have hwins : (rowOfTeam team).wins = pyGet (recordOf team) "wins" := rfl
    have hlosses : (rowOfTeam team).losses = pyGet (recordOf team) "losses" := rfl
    refine ⟨fun h => ?_, fun v h => ?_, fun h => ?_, fun v h => ?_, fun h => ?_,
      fun v h => ?_⟩ <;>
      simp [hties, hwins, hlosses, hrec, pyGetD, pyGet, h]

/-- The team-record fields a witness for C9 exercises. -/
def T1fields : List (String × Json) := [("record", .obj [("wins", .num 8)])]

/-- A concrete team entry whose record has `wins` but no `losses`/`ties`. -/
def T1 : Json := .obj T1fields

/-- A standings payload with one division holding the one team `T1`. -/
def D1 : Json := .obj [("divisions", .arr [.obj [("teams", .arr [T1])]])]

/-- Witness for C9 at `T1`: the row exists, the record resolves through
`record` (and through `recordOverall` on a second team), `ties` defaults to
0, `wins` passes through, `losses` stays null. -/
theorem standings_row_fields_witness :
    (∃ team, rowOfTeam T1 = rowOfTeam team) ∧
    recordOf (.obj T1fields) = .obj [("wins", .num 8)] ∧
    recordOf (.obj [("recordOverall", .obj [("losses", .num 3)])]) =
      .obj [("losses", .num 3)] ∧
    (rowOfTeam T1).ties = .num 0 ∧
    (rowOfTeam T1).wins = .num 8 ∧
    (rowOfTeam T1).losses = .null := by
  have hrec : recordOf (.obj T1fields) = .obj [("wins", .num 8)] :=
    standings_row_fields.2.1 T1fields _ (by simp [T1fields, lookupJ])
  have hrecT : recordOf T1 = .obj [("wins", .num 8)] := hrec
  refine ⟨standings_row_fields.1 D1 (rowOfTeam T1) ?_, hrec,
    standings_row_fields.2.2.1 _ _ (by simp [lookupJ]) (by simp [lookupJ]),
    (standings_row_fields.2.2.2 T1 _ hrecT).1 (by simp [lookupJ]),
    (standings_row_fields.2.2.2 T1 _ hrecT).2.2.2.1 _ (by simp [lookupJ]),
    (standings_row_fields.2.2.2 T1 _ hrecT).2.2.2.2.1 (by simp [lookupJ])⟩
  simp [D1, standings_rows, pyGetD, lookupJ, asArr]

theorem recRow_false (fs : List Player) (rp : Player) :
    recRow false fs rp = fs.filterMap (fun fa =>
      if rp.score < fa.score then some (fa, rp, fa.score - rp.score) else none) := by
  unfold recRow
  apply List.filterMap_congr
  intro fa _
  simp [sub_pos]

theorem recLoop_false (fs rs : List Player) :
    recLoop false fs rs = rs.flatMap (fun rp => fs.filterMap (fun fa =>
      if rp.score < fa.score then some (fa, rp, fa.score - rp.score) else none)) := by
  induction rs with
  | nil => simp [recLoop]
  | cons rp rest ih => simp [recLoop, recRow_false, ih]

/-- Claim C1 counterexample: with the position flag false and roster scores
10 and 20, a free agent of score 25 is recommended as a replacement for the
score-20 player as well, not only for the single worst (score-10) roster
player as the claim states. -/
theorem unconstrained_not_worst_only :
    recommend_upgrades [mkP 10 "X", mkP 20 "X"] [mkP 25 "X"] false =
      [(mkP 25 "X", mkP 10 "X", 15), (mkP 25 "X", mkP 20 "X", 5)] ∧
    (mkP 10 "X").score < (mkP 20 "X").score ∧
    mkP 20 "X" ≠ mkP 10 "X" := by
  refine ⟨?_, by norm_num [mkP_score], by norm_num [mkP]⟩
  norm_num [recommend_upgrades, sortByScoreAsc, sortByScoreDesc, stableSort, insertStable,
    recLoop, recRow, mkP_score, List.filterMap_cons, List.filterMap_nil]

/-- Claim C1 as amended: in position-unconstrained mode every roster player,
taken in ascending-score order, receives one Recommendation per free agent
whose score strictly exceeds its own, scanned in descending free-agent score
order. -/
theorem recommend_unconstrained_all (roster free_agents : List Player) :
    recommend_upgrades roster free_agents false =
      unconstrainedRecsSpec roster free_agents := by
  unfold recommend_upgrades unconstrainedRecsSpec
  by_cases hr : roster.isEmpty
  · rw [List.isEmpty_iff] at hr
    subst hr
    simp [sortByScoreAsc, stableSort]
  · by_cases hf : free_agents.isEmpty
    · rw [List.isEmpty_iff] at hf
      subst hf
      rw [if_pos (by simp)]
      rw [show sortByScoreDesc [] = [] from rfl]
      simp
    · rw [if_neg (by simp [hr, hf])]
      exact recLoop_false _ _

theorem recRow_true (fs : List Player) (rp : Player) :
    recRow true fs rp = fs.filterMap (fun fa =>
      if jeq fa.position rp.position && decide (rp.score < fa.score) then
        some (fa, rp, fa.score - rp.score) else none) := by
  unfold recRow
  apply List.filterMap_congr
  intro fa _
  cases hj : jeq fa.position rp.position <;> simp [hj, sub_pos]

/-- Claim C2 counterexample: with the position flag true, a roster of two
same-position players (scores 10 and 20) and one free agent of score 30,
only the worst roster player receives a Recommendation; the matching,
outscored score-20 player receives none, contradicting the claim that every
roster player is considered. -/
theorem constrained_skips_non_worst :
    recommend_upgrades [mkP 10 "RB", mkP 20 "RB"] [mkP 30 "RB"] true =
      [(mkP 30 "RB", mkP 10 "RB", 20)] ∧
    jeq (mkP 30 "RB").position (mkP 20 "RB").position = true ∧
    (mkP 20 "RB").score < (mkP 30 "RB").score ∧
    (mkP 30 "RB", mkP 20 "RB", (10 : ℚ)) ∉
      recommend_upgrades [mkP 10 "RB", mkP 20 "RB"] [mkP 30 "RB"] true := by
  have heq : recommend_upgrades [mkP 10 "RB", mkP 20 "RB"] [mkP 30 "RB"] true =
      [(mkP 30 "RB", mkP 10 "RB", 20)] := by
    norm_num [recommend_upgrades, sortByScoreAsc, sortByScoreDesc, stableSort, insertStable,
      recLoop, recRow, mkP_score, mkP_position, jeq, List.filterMap_cons, List.filterMap_nil]
  refine ⟨heq, by simp [mkP_position, jeq], by norm_num [mkP_score], ?_⟩
  rw [heq]
  norm_num [mkP]

/-- Claim C2 as amended: in position-constrained mode only the worst roster
player (the head of the ascending stable sort) is considered as a
replacement target; it receives one Recommendation per free agent of the
same position whose score strictly exceeds its own, in descending free-agent
score order. -/
theorem recommend_constrained_worst (roster free_agents : List Player) :
    recommend_upgrades roster free_agents true =
      constrainedWorstSpec roster free_agents := by
  unfold recommend_upgrades constrainedWorstSpec
  by_cases hr : roster.isEmpty
  · rw [List.isEmpty_iff] at hr
    subst hr
    simp [sortByScoreAsc, stableSort]
  · by_cases hf : free_agents.isEmpty
    · rw [List.isEmpty_iff] at hf
      subst hf
      rw [if_pos (by simp)]
      cases hs : sortByScoreAsc roster <;>
        simp [show sortByScoreDesc [] = [] from rfl]
    · rw [if_neg (by simp [hr, hf])]
      cases hs : sortByScoreAsc roster with
      | nil => simp [recLoop]
      | cons worst rest => simp [recLoop, recRow_true]
